import Mathlib

/-!
Shallow embedding of `script/process.py`: a batch tool that validates CSV
rows of device metadata and merges them into per-device YAML documents.

Modelling conventions:
* A Python value stored in a document field (which may be `None`, a string
  or a boolean after merges) is a `Value`; Python truthiness is `truthy`.
* A raw CSV cell as produced by `csv.DictReader` is an `Option String`
  (`none` is Python `None`, used for cells missing from a short row).
* The on-disk tree of `info.yaml` documents is a function from the
  directory key `(integration, manufacturer, model)` to an optional
  document; `copytree`/`read_text`/`write_text` are recorded as `Effect`s.
* `voluptuous.Schema({...})` is validated with its default settings:
  keys of the schema dict are optional (`required=False`) and unknown keys
  are rejected (`extra=PREVENT_EXTRA`); a value validator that is a type
  checks membership in the type, a callable is applied.
-/

/-- A Python value held by a field of an `info.yaml` document:
`None`, a string, or a boolean. -/
inductive Value where
  | vnone : Value
  | vstr : String → Value
  | vbool : Bool → Value
deriving DecidableEq, Repr

/-- Python truthiness of a document/row value: `None`, `""` and `False`
are falsy, everything else truthy. -/
def truthy : Value → Bool
  | Value.vnone => false
  | Value.vstr s => !(s == "")
  | Value.vbool b => b

/-- Python truthiness of an optional string (`None` and `""` are falsy). -/
def optTruthy : Option String → Bool
  | none => false
  | some s => !(s == "")

/-- `str_or_none` of the source: the literal text `"None"` becomes `None`,
anything else passes through. -/
def str_or_none (value : Option String) : Option String :=
  if value == some "None" then none else value

/-- The source's `bool` converter (the name `bool` is taken in Lean): only
the exact literal `"True"` parses as true. -/
def boolConv (value : Option String) : Bool := value == some "True"

/-- One row of a CSV file after `DEVICE_SCHEMA` validation, with all nine
columns present (`csv.DictReader` yields every header key for every row). -/
structure DeviceRow where
  integration : String
  manufacturer : String
  model : String
  sw_version : Option String
  hw_version : Option String
  has_via_device : Bool
  has_suggested_area : Bool
  has_configuration_url : Bool
  entry_type : Option String
deriving DecidableEq, Repr

/-- One entry of a document's `versions` list: a dict with optional keys
`software` and `hardware` (`none` = key absent). Structural equality of the
Python dicts is equality of this structure. -/
structure VersionRecord where
  software : Option String
  hardware : Option String
deriving DecidableEq, Repr

/-- The `info.yaml` document of one device directory. -/
structure DeviceInfo where
  manufacturer_raw : Value
  model_raw : Value
  manufacturer_name : Value
  model_name : Value
  has_via_device : Value
  has_suggested_area : Value
  has_configuration_url : Value
  entry_type : Value
  versions : List VersionRecord
deriving DecidableEq, Repr

/-- The source's `UpdateRecord` dataclass of outcome counters. -/
structure UpdateRecord where
  created : Nat := 0
  updated : Nat := 0
  ignored : Nat := 0
deriving DecidableEq, Repr

/-- The source's `UpdateRecord.__add__`: pointwise addition. -/
def UpdateRecord.add (a b : UpdateRecord) : UpdateRecord :=
  { created := a.created + b.created
    updated := a.updated + b.updated
    ignored := a.ignored + b.ignored }

instance : Add UpdateRecord := ⟨UpdateRecord.add⟩

/-- `APPROVED_INTEGRATIONS`: the external catalog's domains minus the two
permanently excluded identifiers. -/
def APPROVED_INTEGRATIONS (catalog : List String) : List String :=
  catalog.filter (fun domain => !(domain == "wled" || domain == "fritz"))

/-- The directory key of a device: `(integration, manufacturer, model)`
with `/` replaced by `_` in the two free-text segments. -/
abbrev DocKey := String × String × String

/-- Python `str.replace("/", "_")`: the pattern is a single character, so
this is a character-wise map. -/
def sanitize (s : String) : String :=
  String.mk (s.data.map (fun c => if c = '/' then '_' else c))

def docKey (row : DeviceRow) : DocKey :=
  (row.integration, sanitize row.manufacturer, sanitize row.model)

/-- The on-disk tree of documents, one per device directory key. -/
abbrev FS := DocKey → Option DeviceInfo

def emptyFS : FS := fun _ => none

def updateFS (fs : FS) (k : DocKey) (d : DeviceInfo) : FS :=
  fun k' => if k' = k then some d else fs k'

/-- A filesystem interaction of `process_row`: `scaffold` is the
`shutil.copytree` template copy, `load` the `yaml.safe_load` read,
`save` the `write_text` of the merged document. -/
inductive Effect where
  | scaffold : DocKey → Effect
  | load : DocKey → Effect
  | save : DocKey → DeviceInfo → Effect
deriving DecidableEq, Repr

/-- Modelled from the spec: the repository's `template/info.yaml` (the
`template` directory is not among the source files) provides the freshly
scaffolded document; per the spec's end-to-end scenario a fresh document
has every scalar field absent and an empty `versions` list. -/
def TEMPLATE : DeviceInfo :=
  { manufacturer_raw := Value.vnone
    model_raw := Value.vnone
    manufacturer_name := Value.vnone
    model_name := Value.vnone
    has_via_device := Value.vnone
    has_suggested_area := Value.vnone
    has_configuration_url := Value.vnone
    entry_type := Value.vnone
    versions := [] }

/-- The body of the merge loop: assign the row value to the document field
only when the field is falsy and the row value truthy; the flag reports
whether an assignment happened. -/
def setField (cur newv : Value) : Value × Bool :=
  if !truthy cur && truthy newv then (newv, true) else (cur, false)

/-- `row["entry_type"] = "device"` when the row's entry type is falsy. -/
def entryTypeDefault (e : Option String) : String :=
  match e with
  | none => "device"
  | some s => if s == "" then "device" else s

/-- The loop over the eight `(row_key, info_key)` pairs of `process_row`,
unrolled (the eight document fields are pairwise distinct, so the
sequential assignments are independent); the flag is the loop's `changed`. -/
def mergeFields (row : DeviceRow) (info : DeviceInfo) : DeviceInfo × Bool :=
  let p1 := setField info.manufacturer_raw (Value.vstr row.manufacturer)
  let p2 := setField info.model_raw (Value.vstr row.model)
  let p3 := setField info.manufacturer_name (Value.vstr row.manufacturer)
  let p4 := setField info.model_name (Value.vstr row.model)
  let p5 := setField info.has_via_device (Value.vbool row.has_via_device)
  let p6 := setField info.has_suggested_area (Value.vbool row.has_suggested_area)
  let p7 := setField info.has_configuration_url (Value.vbool row.has_configuration_url)
  let p8 := setField info.entry_type (Value.vstr (entryTypeDefault row.entry_type))
  ({ info with
      manufacturer_raw := p1.1
      model_raw := p2.1
      manufacturer_name := p3.1
      model_name := p4.1
      has_via_device := p5.1
      has_suggested_area := p6.1
      has_configuration_url := p7.1
      entry_type := p8.1 },
   p1.2 || p2.2 || p3.2 || p4.2 || p5.2 || p6.2 || p7.2 || p8.2)

/-- The `version` dict built from a row: key `software` present when the
row's software version is truthy, key `hardware` likewise. -/
def versionRecord (row : DeviceRow) : VersionRecord :=
  { software := if optTruthy row.sw_version then row.sw_version else none
    hardware := if optTruthy row.hw_version then row.hw_version else none }

/-- Append the row's version record unless an equal one is already in the
list; the flag reports whether an append happened. -/
def mergeVersions (row : DeviceRow) (versions : List VersionRecord) :
    List VersionRecord × Bool :=
  let v := versionRecord row
  if v ∈ versions then (versions, false) else (versions ++ [v], true)

/-- The whole in-memory merge of one row into one loaded document: the
field loop followed by the version append; the flag is `changed`. -/
def mergeStep (row : DeviceRow) (info : DeviceInfo) : DeviceInfo × Bool :=
  let f := mergeFields row info
  let v := mergeVersions row f.1.versions
  ({ f.1 with versions := v.1 }, f.2 || v.2)

/-- `process_row`: ignore unapproved integrations before any filesystem
interaction; otherwise scaffold when the document directory is missing,
load, merge, and write back only when the merge changed the document.
Returns the new tree, the outcome counters and the interaction trace. -/
def process_row (approved : List String) (fs : FS) (row : DeviceRow) :
    FS × UpdateRecord × List Effect :=
  if row.integration ∈ approved then
    let k := docKey row
    match fs k with
    | none =>
      let fs1 := updateFS fs k TEMPLATE
      let m := mergeStep row TEMPLATE
      if m.2 then
        (updateFS fs1 k m.1, { created := 1 },
         [Effect.scaffold k, Effect.load k, Effect.save k m.1])
      else
        (fs1, { created := 1 }, [Effect.scaffold k, Effect.load k])
    | some info =>
      let m := mergeStep row info
      if m.2 then
        (updateFS fs k m.1, { updated := 1 }, [Effect.load k, Effect.save k m.1])
      else
        (fs, {}, [Effect.load k])
  else
    (fs, { ignored := 1 }, [])

/-! ## The schema validator -/

/-- A raw CSV row as `csv.DictReader` hands it to the schema: an
association list from column name to cell (cells of a short row are
`None`). -/
abbrev RawRow := List (String × Option String)

/-- A value validator of `DEVICE_SCHEMA`: the type `str`, or one of the two
converter callables. -/
inductive Conv where
  | cstr : Conv
  | cstrOrNone : Conv
  | cbool : Conv
deriving DecidableEq, Repr

/-- The `DEVICE_SCHEMA` dict: column name to value validator. -/
def DEVICE_SCHEMA : List (String × Conv) :=
  [("integration", Conv.cstr),
   ("manufacturer", Conv.cstr),
   ("model", Conv.cstr),
   ("sw_version", Conv.cstrOrNone),
   ("hw_version", Conv.cstrOrNone),
   ("has_via_device", Conv.cbool),
   ("has_suggested_area", Conv.cbool),
   ("has_configuration_url", Conv.cbool),
   ("entry_type", Conv.cstrOrNone)]

/-- Apply one value validator: `str` demands an actual string (a `None`
cell fails), the two callables are total. -/
def applyConv : Conv → Option String → Except String Value
  | Conv.cstr, some s => Except.ok (Value.vstr s)
  | Conv.cstr, none => Except.error "expected str"
  | Conv.cstrOrNone, v =>
    Except.ok (match str_or_none v with
      | none => Value.vnone
      | some s => Value.vstr s)
  | Conv.cbool, v => Except.ok (Value.vbool (boolConv v))

/-- `DEVICE_SCHEMA(row)` with voluptuous defaults: every key of the data
must be a schema key (`extra=PREVENT_EXTRA`) and its value must convert;
schema keys absent from the data are not required (`required=False`). -/
def validate : RawRow → Except String (List (String × Value))
  | [] => Except.ok []
  | (k, v) :: rest =>
    match DEVICE_SCHEMA.find? (fun p => p.1 == k) with
    | none => Except.error (String.append "extra keys not allowed: " k)
    | some p =>
      match applyConv p.2 v with
      | Except.error e => Except.error e
      | Except.ok w =>
        match validate rest with
        | Except.error e => Except.error e
        | Except.ok ws => Except.ok ((k, w) :: ws)

def lookupVal (vr : List (String × Value)) (k : String) : Option Value :=
  (vr.find? (fun p => p.1 == k)).map (fun p => p.2)

def asStr : Option Value → Option String
  | some (Value.vstr s) => some s
  | _ => none

def asOptStr : Option Value → Option (Option String)
  | some Value.vnone => some none
  | some (Value.vstr s) => some (some s)
  | _ => none

def asBool : Option Value → Option Bool
  | some (Value.vbool b) => some b
  | _ => none

/-- Read the nine fields `process_row` subscripts out of a validated row
dict; `none` models the `KeyError` a dict missing one of them would raise. -/
def toDeviceRow (vr : List (String × Value)) : Option DeviceRow := do
  let integration ← asStr (lookupVal vr "integration")
  let manufacturer ← asStr (lookupVal vr "manufacturer")
  let model ← asStr (lookupVal vr "model")
  let sw ← asOptStr (lookupVal vr "sw_version")
  let hw ← asOptStr (lookupVal vr "hw_version")
  let hvd ← asBool (lookupVal vr "has_via_device")
  let hsa ← asBool (lookupVal vr "has_suggested_area")
  let hcu ← asBool (lookupVal vr "has_configuration_url")
  let et ← asOptStr (lookupVal vr "entry_type")
  pure (DeviceRow.mk integration manufacturer model sw hw hvd hsa hcu et)

/-- An error that aborts one file: the schema's `vol.Invalid` (re-raised by
`process_file`), or a missing key where `process_row` subscripts the row. -/
inductive FileErr where
  | schema : String → FileErr
  | missingKey : FileErr
deriving DecidableEq, Repr

/-- `process_file` over the parsed rows of one file: validate and merge
each row in file order, abort on the first failure keeping the tree as the
already-merged rows left it, and sum the outcome counters. -/
def process_file (approved : List String) (fs : FS) :
    List RawRow → FS × Except FileErr UpdateRecord
  | [] => (fs, Except.ok {})
  | r :: rest =>
    match validate r with
    | Except.error e => (fs, Except.error (FileErr.schema e))
    | Except.ok vr =>
      match toDeviceRow vr with
      | none => (fs, Except.error FileErr.missingKey)
      | some dr =>
        let res := process_row approved fs dr
        match process_file approved res.1 rest with
        | (fs', Except.ok t) => (fs', Except.ok (res.2.1 + t))
        | (fs', Except.error e) => (fs', Except.error e)

/-- One iteration of the batch loop of `process`: add a successful file's
record to the running total, keep the total unchanged when the file fails
(the tree keeps whatever the file wrote before failing). -/
def batchStep (approved : List String) (acc : FS × UpdateRecord)
    (f : List RawRow) : FS × UpdateRecord :=
  match process_file approved acc.1 f with
  | (fs', Except.ok u) => (fs', acc.2 + u)
  | (fs', Except.error _) => (fs', acc.2)

/-- `process`: fold the batch loop over the input files, starting from an
empty total. -/
def process (approved : List String) (files : List (List RawRow)) (fs : FS) :
    FS × UpdateRecord :=
  files.foldl (batchStep approved) (fs, {})

/-! ## Concrete inputs used by witnesses and examples -/

/-- The spec's end-to-end scenario row for integration `hue`. -/
def hueRow : DeviceRow :=
  { integration := "hue", manufacturer := "Signify", model := "LCT001"
    sw_version := none, hw_version := some "1", has_via_device := true
    has_suggested_area := false, has_configuration_url := false
    entry_type := none }

/-- A row for the permanently excluded integration `wled`. -/
def wledRow : DeviceRow :=
  { integration := "wled", manufacturer := "WLED", model := "FOSS"
    sw_version := some "0.14", hw_version := none, has_via_device := false
    has_suggested_area := false, has_configuration_url := true
    entry_type := none }

/-- An existing document whose display name is already `"Acme"`. -/
def acmeInfo : DeviceInfo :=
  { TEMPLATE with manufacturer_name := Value.vstr "Acme" }

/-- A later row that disagrees on the manufacturer. -/
def otherRow : DeviceRow :=
  { integration := "hue", manufacturer := "Other", model := "M"
    sw_version := none, hw_version := none, has_via_device := false
    has_suggested_area := false, has_configuration_url := false
    entry_type := none }

/-- One entry of a raw mapping is acceptable to the schema: its key is a
schema key and its value converts under the key's validator. -/
def entryOk (p : String × Option String) : Bool :=
  match DEVICE_SCHEMA.find? (fun q => q.1 == p.1) with
  | none => false
  | some q =>
    match applyConv q.2 p.2 with
    | Except.ok _ => true
    | Except.error _ => false

/-- The rows of a file when every row passes validation and carries all
nine fields: the typed rows `process_file` will merge, in file order. -/
def validRows : List RawRow → Option (List DeviceRow)
  | [] => some []
  | r :: rest =>
    match validate r with
    | Except.error _ => none
    | Except.ok vr =>
      match toDeviceRow vr with
      | none => none
      | some dr => (validRows rest).map (fun l => dr :: l)

/-- Merging a list of already-validated rows in order, threading the tree
and summing the per-row outcome records. -/
def mergeRows (approved : List String) : FS → List DeviceRow → FS × UpdateRecord
  | fs, [] => (fs, {})
  | fs, dr :: rest =>
    let res := process_row approved fs dr
    let acc := mergeRows approved res.1 rest
    (acc.1, res.2.1 + acc.2)

/-- A raw row with a key outside the schema: validation rejects it. -/
def badRawRow : RawRow := [("bogus", some "x")]

/-! ## Helper lemmas -/

theorem setField_eq_ite (cur newv : Value) :
    (setField cur newv).1 =
      if truthy cur = false ∧ truthy newv = true then newv else cur := by
  unfold setField
  cases h1 : truthy cur <;> cases h2 : truthy newv <;> simp [h1, h2]

theorem setField_keeps (cur newv : Value) (h : truthy cur = true) :
    (setField cur newv).1 = cur := by
  unfold setField
  simp [h]

theorem setField_stable_fst (cur newv : Value) :
    (setField (setField cur newv).1 newv).1 = (setField cur newv).1 := by
  unfold setField
  cases h1 : truthy cur <;> cases h2 : truthy newv <;> simp [h1, h2]

theorem setField_stable_snd (cur newv : Value) :
    (setField (setField cur newv).1 newv).2 = false := by
  unfold setField
  cases h1 : truthy cur <;> cases h2 : truthy newv <;> simp [h1, h2]

theorem mergeFields_versions (row : DeviceRow) (info : DeviceInfo) :
    (mergeFields row info).1.versions = info.versions := rfl

theorem mergeVersions_mem (row : DeviceRow) (vs : List VersionRecord) :
    versionRecord row ∈ (mergeVersions row vs).1 := by
  unfold mergeVersions
  by_cases h : versionRecord row ∈ vs <;> simp [h]

theorem mergeVersions_stable (row : DeviceRow) (vs : List VersionRecord) :
    mergeVersions row (mergeVersions row vs).1 = ((mergeVersions row vs).1, false) := by
  unfold mergeVersions
  by_cases h : versionRecord row ∈ vs <;> simp [h]

theorem mergeFields_stable (row : DeviceRow) (info : DeviceInfo) :
    mergeFields row (mergeFields row info).1 = ((mergeFields row info).1, false) := by
  simp only [mergeFields]
  simp [setField_stable_fst, setField_stable_snd]

theorem mergeStep_fst (row : DeviceRow) (info : DeviceInfo) :
    (mergeStep row info).1 =
      { (mergeFields row info).1 with
          versions := (mergeVersions row info.versions).1 } := rfl

theorem mergeFields_set_versions (row : DeviceRow) (i : DeviceInfo)
    (vs : List VersionRecord) :
    mergeFields row { i with versions := vs } =
      ({ (mergeFields row i).1 with versions := vs }, (mergeFields row i).2) := rfl

theorem mergeStep_stable (row : DeviceRow) (info : DeviceInfo) :
    mergeStep row (mergeStep row info).1 = ((mergeStep row info).1, false) := by
  have hD : (mergeStep row info).1 =
      { (mergeFields row info).1 with
          versions := (mergeVersions row info.versions).1 } := rfl
  rw [hD]
  simp only [mergeStep, mergeFields_set_versions, mergeFields_stable]
  simp [mergeVersions_stable]

theorem mergeStep_template_changed (row : DeviceRow) :
    (mergeStep row TEMPLATE).2 = true := by
  have hv : (mergeFields row TEMPLATE).1.versions = [] := rfl
  simp only [mergeStep, hv]
  simp [mergeVersions]

/-! ## Claim theorems -/

/-- C8: the capability-flag converter parses a string as true exactly when
it is the literal `"True"`; `"true"`, `"TRUE"` and `"1"` all parse false. -/
theorem boolConv_strict :
    (∀ s : String, boolConv (some s) = true ↔ s = "True") ∧
    boolConv (some "True") = true ∧ boolConv (some "true") = false ∧
    boolConv (some "TRUE") = false ∧ boolConv (some "1") = false := by
  refine ⟨fun s => ?_, rfl, rfl, rfl, rfl⟩
  simp [boolConv]

/-- C4: a row whose integration is not approved — in particular any `wled`
or `fritz` row, whatever the catalog contains — yields only the `Ignored`
counter and produces no filesystem interaction at all: the tree is returned
unchanged and the effect trace is empty. -/
theorem process_row_ignored (catalog : List String) (fs : FS) (row : DeviceRow)
    (h : row.integration ∉ APPROVED_INTEGRATIONS catalog ∨
         row.integration = "wled" ∨ row.integration = "fritz") :
    process_row (APPROVED_INTEGRATIONS catalog) fs row =
      (fs, { ignored := 1 }, []) := by
  have hnot : row.integration ∉ APPROVED_INTEGRATIONS catalog := by
    rcases h with h | h | h
    · exact h
    all_goals
      intro hmem
      rw [APPROVED_INTEGRATIONS, List.mem_filter] at hmem
      rw [h] at hmem
      simp at hmem
  simp [process_row, hnot]

/-- Witness for C4: a `wled` row against a catalog that lists `wled` is
ignored with no effects. -/
theorem process_row_ignored_witness :
    (wledRow.integration ∉ APPROVED_INTEGRATIONS ["wled", "hue"] ∨
       wledRow.integration = "wled" ∨ wledRow.integration = "fritz") ∧
    process_row (APPROVED_INTEGRATIONS ["wled", "hue"]) emptyFS wledRow =
      (emptyFS, { ignored := 1 }, []) :=
  ⟨Or.inr (Or.inl rfl),
   process_row_ignored ["wled", "hue"] emptyFS wledRow (Or.inr (Or.inl rfl))⟩

/-- C10: the outcome counters of one row are each at most one, at most one
of the three is nonzero, and all three are zero exactly when an approved
row merges into an existing document without changing it. -/
theorem process_row_outcome_exclusive (approved : List String) (fs : FS)
    (row : DeviceRow) :
    ((process_row approved fs row).2.1.created ≤ 1 ∧
     (process_row approved fs row).2.1.updated ≤ 1 ∧
     (process_row approved fs row).2.1.ignored ≤ 1 ∧
     (process_row approved fs row).2.1.created +
       (process_row approved fs row).2.1.updated +
       (process_row approved fs row).2.1.ignored ≤ 1) ∧
    ((process_row approved fs row).2.1 = ({} : UpdateRecord) ↔
      row.integration ∈ approved ∧
        ∃ d, fs (docKey row) = some d ∧ (mergeStep row d).2 = false) := by
  by_cases hmem : row.integration ∈ approved
  · cases hfk : fs (docKey row) with
    | none =>
      by_cases hm : (mergeStep row TEMPLATE).2 = true <;>
        simp [process_row, hmem, hfk, hm, UpdateRecord.mk.injEq]
    | some info =>
      by_cases hm : (mergeStep row info).2 = true <;>
        simp [process_row, hmem, hfk, hm, UpdateRecord.mk.injEq]
  · simp [process_row, hmem, UpdateRecord.mk.injEq]

/-- C5: the merge assigns a row value to a document field only when the
field is falsy and the row value truthy, for each of the eight mapping
pairs; a field already holding a truthy value is never changed (in
particular `manufacturer_name = "Acme"` survives a row with manufacturer
`"Other"`), and the field loop leaves `versions` alone. -/
theorem mergeFields_first_write_wins (row : DeviceRow) (info : DeviceInfo) :
    ((mergeFields row info).1.manufacturer_raw =
       (if truthy info.manufacturer_raw = false ∧
           truthy (Value.vstr row.manufacturer) = true
        then Value.vstr row.manufacturer else info.manufacturer_raw) ∧
     (mergeFields row info).1.model_raw =
       (if truthy info.model_raw = false ∧ truthy (Value.vstr row.model) = true
        then Value.vstr row.model else info.model_raw) ∧
     (mergeFields row info).1.manufacturer_name =
       (if truthy info.manufacturer_name = false ∧
           truthy (Value.vstr row.manufacturer) = true
        then Value.vstr row.manufacturer else info.manufacturer_name) ∧
     (mergeFields row info).1.model_name =
       (if truthy info.model_name = false ∧ truthy (Value.vstr row.model) = true
        then Value.vstr row.model else info.model_name) ∧
     (mergeFields row info).1.has_via_device =
       (if truthy info.has_via_device = false ∧
           truthy (Value.vbool row.has_via_device) = true
        then Value.vbool row.has_via_device else info.has_via_device) ∧
     (mergeFields row info).1.has_suggested_area =
       (if truthy info.has_suggested_area = false ∧
           truthy (Value.vbool row.has_suggested_area) = true
        then Value.vbool row.has_suggested_area else info.has_suggested_area) ∧
     (mergeFields row info).1.has_configuration_url =
       (if truthy info.has_configuration_url = false ∧
           truthy (Value.vbool row.has_configuration_url) = true
        then Value.vbool row.has_configuration_url
        else info.has_configuration_url) ∧
     (mergeFields row info).1.entry_type =
       (if truthy info.entry_type = false ∧
           truthy (Value.vstr (entryTypeDefault row.entry_type)) = true
        then Value.vstr (entryTypeDefault row.entry_type)
        else info.entry_type)) ∧
    ((truthy info.manufacturer_raw = true →
        (mergeFields row info).1.manufacturer_raw = info.manufacturer_raw) ∧
     (truthy info.model_raw = true →
        (mergeFields row info).1.model_raw = info.model_raw) ∧
     (truthy info.manufacturer_name = true →
        (mergeFields row info).1.manufacturer_name = info.manufacturer_name) ∧
     (truthy info.model_name = true →
        (mergeFields row info).1.model_name = info.model_name) ∧
     (truthy info.has_via_device = true →
        (mergeFields row info).1.has_via_device = info.has_via_device) ∧
     (truthy info.has_suggested_area = true →
        (mergeFields row info).1.has_suggested_area = info.has_suggested_area) ∧
     (truthy info.has_configuration_url = true →
        (mergeFields row info).1.has_configuration_url =
          info.has_configuration_url) ∧
     (truthy info.entry_type = true →
        (mergeFields row info).1.entry_type = info.entry_type)) ∧
    (mergeFields row info).1.versions = info.versions ∧
    (mergeFields otherRow acmeInfo).1.manufacturer_name = Value.vstr "Acme" := by
  refine ⟨⟨?_, ?_, ?_, ?_, ?_, ?_, ?_, ?_⟩,
    ⟨fun h => setField_keeps _ _ h, fun h => setField_keeps _ _ h,
     fun h => setField_keeps _ _ h, fun h => setField_keeps _ _ h,
     fun h => setField_keeps _ _ h, fun h => setField_keeps _ _ h,
     fun h => setField_keeps _ _ h, fun h => setField_keeps _ _ h⟩,
    rfl, by decide⟩ <;>
  exact setField_eq_ite _ _

/-- C6: the version record built from a row has key `software` exactly when
the row's software version is truthy (likewise `hardware`, the empty record
when both are absent); the merge appends it exactly when no equal record is
in the list, never removes or reorders entries (the old list stays an
initial segment), and a second merge of the same row appends nothing. -/
theorem mergeStep_version_dedup (row : DeviceRow) (info : DeviceInfo) :
    (versionRecord row).software =
      (if optTruthy row.sw_version then row.sw_version else none) ∧
    (versionRecord row).hardware =
      (if optTruthy row.hw_version then row.hw_version else none) ∧
    (optTruthy row.sw_version = false → optTruthy row.hw_version = false →
       versionRecord row = { software := none, hardware := none }) ∧
    (mergeStep row info).1.versions =
      (if versionRecord row ∈ info.versions then info.versions
       else info.versions ++ [versionRecord row]) ∧
    (∃ tail, (mergeStep row info).1.versions = info.versions ++ tail) ∧
    versionRecord row ∈ (mergeStep row info).1.versions ∧
    (mergeStep row (mergeStep row info).1).1.versions =
      (mergeStep row info).1.versions := by
  have hv : (mergeStep row info).1.versions = (mergeVersions row info.versions).1 := rfl
  refine ⟨rfl, rfl, ?_, ?_, ?_, ?_, ?_⟩
  · intro h1 h2
    simp [versionRecord, h1, h2]
  · rw [hv]
    unfold mergeVersions
    by_cases h : versionRecord row ∈ info.versions <;> simp [h]
  · rw [hv]
    unfold mergeVersions
    by_cases h : versionRecord row ∈ info.versions
    · exact ⟨[], by simp [h]⟩
    · exact ⟨[versionRecord row], by simp [h]⟩
  · rw [hv]
    exact mergeVersions_mem row info.versions
  · have := mergeStep_stable row info
    rw [this]

theorem updateFS_same (fs : FS) (k : DocKey) (d : DeviceInfo) :
    updateFS fs k d k = some d := by
  simp [updateFS]

theorem setField_unchanged (cur newv : Value) (h : (setField cur newv).2 = false) :
    (setField cur newv).1 = cur := by
  unfold setField at h ⊢
  by_cases hc : (!truthy cur && truthy newv) = true
  · rw [if_pos hc] at h
    simp at h
  · rw [if_neg hc]

theorem mergeFields_unchanged (row : DeviceRow) (info : DeviceInfo)
    (h : (mergeFields row info).2 = false) :
    (mergeFields row info).1 = info := by
  simp only [mergeFields, Bool.or_eq_false_iff] at h
  obtain ⟨⟨⟨⟨⟨⟨⟨h1, h2⟩, h3⟩, h4⟩, h5⟩, h6⟩, h7⟩, h8⟩ := h
  simp only [mergeFields]
  rw [setField_unchanged _ _ h1, setField_unchanged _ _ h2,
      setField_unchanged _ _ h3, setField_unchanged _ _ h4,
      setField_unchanged _ _ h5, setField_unchanged _ _ h6,
      setField_unchanged _ _ h7, setField_unchanged _ _ h8]

theorem mergeVersions_unchanged (row : DeviceRow) (vs : List VersionRecord)
    (h : (mergeVersions row vs).2 = false) :
    (mergeVersions row vs).1 = vs := by
  unfold mergeVersions at h ⊢
  by_cases hv : versionRecord row ∈ vs <;> simp [hv] at h ⊢

theorem mergeStep_unchanged (row : DeviceRow) (info : DeviceInfo)
    (h : (mergeStep row info).2 = false) :
    (mergeStep row info).1 = info := by
  have h2 : ((mergeFields row info).2 ||
      (mergeVersions row info.versions).2) = false := h
  rw [Bool.or_eq_false_iff] at h2
  rw [mergeStep_fst, mergeFields_unchanged row info h2.1,
      mergeVersions_unchanged row info.versions h2.2]

/-- C1: merging a valid approved row a second time, against the tree the
first merge produced, is a no-op: the tree is returned unchanged, the
in-memory merge of the stored document assigns nothing and appends nothing,
no save (or scaffold) happens, and the outcome counters are all zero. -/
theorem process_row_idempotent (approved : List String) (fs : FS)
    (row : DeviceRow) (h : row.integration ∈ approved) :
    process_row approved (process_row approved fs row).1 row =
      ((process_row approved fs row).1, ({} : UpdateRecord),
       [Effect.load (docKey row)]) ∧
    ∀ d, (process_row approved fs row).1 (docKey row) = some d →
      mergeStep row d = (d, false) := by
  cases hfk : fs (docKey row) with
  | none =>
    by_cases hm : (mergeStep row TEMPLATE).2 = true
    · have h0 : process_row approved fs row =
          (updateFS (updateFS fs (docKey row) TEMPLATE) (docKey row)
             (mergeStep row TEMPLATE).1, { created := 1 },
           [Effect.scaffold (docKey row), Effect.load (docKey row),
            Effect.save (docKey row) (mergeStep row TEMPLATE).1]) := by
        simp [process_row, h, hfk, hm]
      rw [h0]
      refine ⟨?_, fun d hd => ?_⟩
      · simp [process_row, h, updateFS_same, mergeStep_stable]
      · simp only [updateFS_same, Option.some.injEq] at hd
        subst hd
        exact mergeStep_stable ..
    · have hm' : (mergeStep row TEMPLATE).2 = false := by simpa using hm
      have h0 : process_row approved fs row =
          (updateFS fs (docKey row) TEMPLATE, { created := 1 },
           [Effect.scaffold (docKey row), Effect.load (docKey row)]) := by
        simp [process_row, h, hfk, hm]
      rw [h0]
      refine ⟨?_, fun d hd => ?_⟩
      · simp [process_row, h, updateFS_same, hm']
      · simp only [updateFS_same, Option.some.injEq] at hd
        subst hd
        rw [Prod.ext_iff]
        exact ⟨mergeStep_unchanged row TEMPLATE hm', hm'⟩
  | some info =>
    by_cases hm : (mergeStep row info).2 = true
    · have h0 : process_row approved fs row =
          (updateFS fs (docKey row) (mergeStep row info).1, { updated := 1 },
           [Effect.load (docKey row),
            Effect.save (docKey row) (mergeStep row info).1]) := by
        simp [process_row, h, hfk, hm]
      rw [h0]
      refine ⟨?_, fun d hd => ?_⟩
      · simp [process_row, h, updateFS_same, mergeStep_stable]
      · simp only [updateFS_same, Option.some.injEq] at hd
        subst hd
        exact mergeStep_stable ..
    · have hm' : (mergeStep row info).2 = false := by simpa using hm
      have h0 : process_row approved fs row =
          (fs, ({} : UpdateRecord), [Effect.load (docKey row)]) := by
        simp [process_row, h, hfk, hm']
      rw [h0]
      refine ⟨?_, fun d hd => ?_⟩
      · simp [process_row, h, hfk, hm']
      · have hd' : fs (docKey row) = some d := hd
        rw [hfk] at hd'
        cases hd'
        rw [Prod.ext_iff]
        exact ⟨mergeStep_unchanged row info hm', hm'⟩

/-- Witness for C1: the spec's scenario row, merged into an empty tree and
then merged again against the resulting tree. -/
theorem process_row_idempotent_witness :
    hueRow.integration ∈ ["hue"] ∧
    (process_row ["hue"] (process_row ["hue"] emptyFS hueRow).1 hueRow =
       ((process_row ["hue"] emptyFS hueRow).1, ({} : UpdateRecord),
        [Effect.load (docKey hueRow)]) ∧
     ∀ d, (process_row ["hue"] emptyFS hueRow).1 (docKey hueRow) = some d →
       mergeStep hueRow d = (d, false)) :=
  ⟨by decide, process_row_idempotent ["hue"] emptyFS hueRow (by decide)⟩

/-- C2: for an approved row, `process_row` writes `info.yaml` back exactly
when the document was freshly scaffolded or at least one field assignment
or version append occurred; a fresh scaffold always incurs the version
append (the template's `versions` list is empty), so it is always
persisted. -/
theorem process_row_save_iff (approved : List String) (fs : FS)
    (row : DeviceRow) (h : row.integration ∈ approved) :
    (∃ d, Effect.save (docKey row) d ∈ (process_row approved fs row).2.2) ↔
      (fs (docKey row) = none ∨
       ∃ d, fs (docKey row) = some d ∧ (mergeStep row d).2 = true) := by
  cases hfk : fs (docKey row) with
  | none =>
    have hm := mergeStep_template_changed row
    simp [process_row, h, hfk, hm]
  | some info =>
    by_cases hm : (mergeStep row info).2 = true <;>
      simp [process_row, h, hfk, hm]

/-- Witness for C2: the scenario row scaffolds a fresh document in the
empty tree and is saved. -/
theorem process_row_save_iff_witness :
    hueRow.integration ∈ ["hue"] ∧
    ((∃ d, Effect.save (docKey hueRow) d ∈
        (process_row ["hue"] emptyFS hueRow).2.2) ↔
      (emptyFS (docKey hueRow) = none ∨
       ∃ d, emptyFS (docKey hueRow) = some d ∧ (mergeStep hueRow d).2 = true)) :=
  ⟨by decide, process_row_save_iff ["hue"] emptyFS hueRow (by decide)⟩

/-- C3 (amended): validation succeeds exactly when every entry present in
the raw mapping has a schema key and a convertible value — an unknown key
or a failed conversion raises the schema error, while a missing key is not
an error (the schema's keys are optional) — and a row failing validation is
rejected before any side effect: `process_file` stops at it leaving the
tree untouched by it. -/
theorem validate_ok_iff :
    (∀ raw : RawRow, (validate raw).isOk = raw.all entryOk) ∧
    (∀ (approved : List String) (fs : FS) (r : RawRow) (rest : List RawRow)
       (e : String), validate r = Except.error e →
       process_file approved fs (r :: rest) =
         (fs, Except.error (FileErr.schema e))) := by
  constructor
  · intro raw
    induction raw with
    | nil => rfl
    | cons p rest ih =>
      obtain ⟨k, v⟩ := p
      simp only [validate, List.all_cons]
      cases hf : DEVICE_SCHEMA.find? (fun q => q.1 == k) with
      | none => simp [entryOk, hf, Except.isOk, Except.toBool]
      | some q =>
        cases hc : applyConv q.2 v with
        | error e => simp [entryOk, hf, hc, Except.isOk, Except.toBool]
        | ok w =>
          cases hv : validate rest with
          | error e =>
            rw [hv] at ih
            simp [entryOk, hf, hc, Except.isOk, Except.toBool, ← ih]
          | ok ws =>
            rw [hv] at ih
            simp [entryOk, hf, hc, Except.isOk, Except.toBool, ← ih]
  · intro approved fs r rest e hval
    simp [process_file, hval]

/-- Counterexample to C3 as stated: the empty raw mapping is missing all
nine schema keys, yet validation succeeds — bare keys of a voluptuous
schema are optional. -/
theorem validate_missing_keys_ok : validate [] = Except.ok [] := rfl

/-- C7: `process_file` reads rows in file order; at the first invalid row
it fails with the wrapped schema error, processes nothing further, and the
tree keeps exactly the effects of the rows merged before the failure; a
file of only valid rows succeeds with the ordered sum of its rows'
records. -/
theorem process_file_first_error :
    (∀ (approved : List String) (fs : FS) (pre : List RawRow)
       (drs : List DeviceRow) (bad : RawRow) (post : List RawRow) (e : String),
       validRows pre = some drs → validate bad = Except.error e →
       process_file approved fs (pre ++ bad :: post) =
         ((mergeRows approved fs drs).1, Except.error (FileErr.schema e))) ∧
    (∀ (approved : List String) (fs : FS) (rows : List RawRow)
       (drs : List DeviceRow), validRows rows = some drs →
       process_file approved fs rows =
         ((mergeRows approved fs drs).1,
          Except.ok (mergeRows approved fs drs).2)) := by
  constructor
  · intro approved fs pre
    induction pre generalizing fs with
    | nil =>
      intro drs bad post e hpre hbad
      simp only [validRows, Option.some.injEq] at hpre
      subst hpre
      simp [process_file, hbad, mergeRows]
    | cons r pre ih =>
      intro drs bad post e hpre hbad
      revert hpre
      simp only [validRows]
      cases hval : validate r with
      | error e' => simp [hval]
      | ok vr =>
        cases htd : toDeviceRow vr with
        | none => simp [htd]
        | some dr =>
          cases hrest : validRows pre with
          | none => simp [htd, hrest]
          | some drs' =>
            intro hpre
            simp only [htd, hrest, Option.map_some', Option.some.injEq] at hpre
            subst hpre
            simp only [List.cons_append, process_file, hval, htd]
            simp only [List.append_eq]
            rw [ih _ drs' bad post e hrest hbad]
            simp [mergeRows]
  · intro approved fs rows
    induction rows generalizing fs with
    | nil =>
      intro drs hrows
      simp only [validRows, Option.some.injEq] at hrows
      subst hrows
      simp [process_file, mergeRows]
    | cons r rows ih =>
      intro drs hrows
      revert hrows
      simp only [validRows]
      cases hval : validate r with
      | error e' => simp [hval]
      | ok vr =>
        cases htd : toDeviceRow vr with
        | none => simp [htd]
        | some dr =>
          cases hrest : validRows rows with
          | none => simp [htd, hrest]
          | some drs' =>
            intro hrows
            simp only [htd, hrest, Option.map_some', Option.some.injEq] at hrows
            subst hrows
            simp only [process_file, hval, htd]
            rw [ih _ drs' hrest]
            simp [mergeRows]

/-- Witness for C3: a row with an unknown key fails validation, and
`process_file` rejects it before any side effect. -/
theorem validate_ok_iff_witness :
    validate badRawRow =
      Except.error (String.append "extra keys not allowed: " "bogus") ∧
    process_file ["hue"] emptyFS (badRawRow :: []) =
      (emptyFS, Except.error (FileErr.schema
        (String.append "extra keys not allowed: " "bogus"))) :=
  ⟨rfl,
   validate_ok_iff.2 ["hue"] emptyFS badRawRow []
     (String.append "extra keys not allowed: " "bogus") rfl⟩

/-- Witness for C7: a file whose first invalid row follows no valid rows
aborts with the wrapped schema error, leaving the empty tree untouched. -/
theorem process_file_first_error_witness :
    validRows [] = some ([] : List DeviceRow) ∧
    validate badRawRow =
      Except.error (String.append "extra keys not allowed: " "bogus") ∧
    process_file ["hue"] emptyFS ([] ++ badRawRow :: []) =
      ((mergeRows ["hue"] emptyFS []).1,
       Except.error (FileErr.schema
         (String.append "extra keys not allowed: " "bogus"))) :=
  ⟨rfl, rfl,
   process_file_first_error.1 ["hue"] emptyFS [] [] badRawRow []
     (String.append "extra keys not allowed: " "bogus") rfl rfl⟩

theorem UpdateRecord.addZero (u : UpdateRecord) : u + ({} : UpdateRecord) = u := by
  cases u with
  | mk a b c =>
    show UpdateRecord.mk (a + 0) (b + 0) (c + 0) = UpdateRecord.mk a b c
    simp

theorem UpdateRecord.zeroAdd (u : UpdateRecord) : ({} : UpdateRecord) + u = u := by
  cases u with
  | mk a b c =>
    show UpdateRecord.mk (0 + a) (0 + b) (0 + c) = UpdateRecord.mk a b c
    simp

theorem UpdateRecord.addAssoc (u v w : UpdateRecord) :
    u + v + w = u + (v + w) := by
  cases u with
  | mk a b c =>
    cases v with
    | mk d e f =>
      cases w with
      | mk g i j =>
        show UpdateRecord.mk (a + d + g) (b + e + i) (c + f + j) =
          UpdateRecord.mk (a + (d + g)) (b + (e + i)) (c + (f + j))
        simp [Nat.add_assoc]

/-- Shifting the accumulator of the batch fold out of the initial value. -/
theorem batch_shift (approved : List String) (files : List (List RawRow))
    (fs : FS) (a : UpdateRecord) :
    files.foldl (batchStep approved) (fs, a) =
      ((files.foldl (batchStep approved) (fs, ({} : UpdateRecord))).1,
       a + (files.foldl (batchStep approved) (fs, ({} : UpdateRecord))).2) := by
  induction files generalizing fs a with
  | nil => simp [UpdateRecord.addZero]
  | cons f files ih =>
    simp only [List.foldl_cons]
    cases hpf : process_file approved fs f with
    | mk fs' r =>
      cases r with
      | ok u =>
        have h1 : batchStep approved (fs, a) f = (fs', a + u) := by
          simp [batchStep, hpf]
        have h2 : batchStep approved (fs, ({} : UpdateRecord)) f =
            (fs', ({} : UpdateRecord) + u) := by
          simp [batchStep, hpf]
        rw [h1, h2, UpdateRecord.zeroAdd, ih fs' (a + u), ih fs' u]
        simp [UpdateRecord.addAssoc]
      | error e =>
        have h1 : batchStep approved (fs, a) f = (fs', a) := by
          simp [batchStep, hpf]
        have h2 : batchStep approved (fs, ({} : UpdateRecord)) f =
            (fs', ({} : UpdateRecord)) := by
          simp [batchStep, hpf]
        rw [h1, h2, ih fs' a]

/-- C9: the batch runner invokes the file processor once per file; a
failing file is caught without stopping the batch — the remaining files are
processed against the tree the failing file left, and its record (even of
rows merged before its failure) contributes nothing to the total — while a
successful file adds its record to the total; records add pointwise. -/
theorem process_batch_isolation :
    (∀ (approved : List String) (f : List RawRow) (rest : List (List RawRow))
       (fs fs' : FS) (e : FileErr),
       process_file approved fs f = (fs', Except.error e) →
       process approved (f :: rest) fs = process approved rest fs') ∧
    (∀ (approved : List String) (f : List RawRow) (rest : List (List RawRow))
       (fs fs' : FS) (u : UpdateRecord),
       process_file approved fs f = (fs', Except.ok u) →
       process approved (f :: rest) fs =
         ((process approved rest fs').1,
          u + (process approved rest fs').2)) ∧
    (∀ u v : UpdateRecord,
       u + v = UpdateRecord.mk (u.created + v.created) (u.updated + v.updated)
         (u.ignored + v.ignored)) := by
  refine ⟨?_, ?_, ?_⟩
  · intro approved f rest fs fs' e hpf
    unfold process
    simp only [List.foldl_cons]
    have h1 : batchStep approved (fs, ({} : UpdateRecord)) f =
        (fs', ({} : UpdateRecord)) := by
      simp [batchStep, hpf]
    rw [h1]
  · intro approved f rest fs fs' u hpf
    unfold process
    simp only [List.foldl_cons]
    have h1 : batchStep approved (fs, ({} : UpdateRecord)) f =
        (fs', ({} : UpdateRecord) + u) := by
      simp [batchStep, hpf]
    rw [h1, UpdateRecord.zeroAdd, batch_shift]
  · intro u v
    cases u; cases v
    rfl

/-- Witness for C9: a batch whose first file fails on its one invalid row
contributes nothing and the batch continues from the tree it left. -/
theorem process_batch_isolation_witness :
    process_file ["hue"] emptyFS [badRawRow] =
      (emptyFS, Except.error (FileErr.schema
        (String.append "extra keys not allowed: " "bogus"))) ∧
    process ["hue"] ([badRawRow] :: []) emptyFS = process ["hue"] [] emptyFS :=
  ⟨rfl,
   process_batch_isolation.1 ["hue"] [badRawRow] [] emptyFS emptyFS
     (FileErr.schema (String.append "extra keys not allowed: " "bogus")) rfl⟩
